import Mathlib

/-!
Shallow embedding of `disnake-ext-fluent` (files `src/disnake/ext/fluent/fluent.py`
and `src/disnake/ext/fluent/utils.py`) and proofs about the behaviour of
`FluentStore.get`, `FluentStore.l10n`, `FluentStore.load`, `FluentStore.reload`
and `search_languages` / `search_ftl_files`.

Modelling conventions:
* Python exceptions are `Except PyError`; the state at raise time is carried
  alongside, because earlier mutations persist past a raise.
* `warnings.warn(...)` calls are collected in a `warnings : List String` output.
* The external Fluent formatting library (`FluentLocalization.format_value`) is
  an oracle parameter `fmt : Fmt Fn`; `FluentLocalizator` keeps only the data
  the constructor receives (fallback chain, resources, loader, functions).
* Python `dict` is an insertion-ordered association list (`dictGet`,
  `dictInsert` mirror `d.get(k)` and `d[k] = v`).
* `pathlib.Path` values are lists of path components; `pathStr` is `str()`.
* The filesystem is a finite map `FS` from absolute paths to entry kinds;
  `load`, `search_languages` and `search_ftl_files` take it explicitly.
* The outputs also count formatter invocations (`fmtCalls`) and, for `get`,
  `l10n` invocations (`l10nCalls`), so that "without invoking the formatter"
  and "without re-invoking l10n" are statable.
-/

/-- Python exceptions raised by this code base. -/
inductive PyError where
  | runtimeError (msg : String)
  | localizationKeyError (msg : String)
  | notImplementedError
deriving DecidableEq, Repr

/-- A single quote character, used when rendering Python `str()` output. -/
def pyq : String := String.singleton (Char.ofNat 39)

/-- Values mappings (`dict[str, Any]`): association lists of string keys to
(opaque, here string-rendered) argument values. -/
abbrev Values := List (String × String)

/-- Python `str(values)` for `values : dict[str, str] | None`: `None` for
`none`, and the dict repr otherwise. Models the stringification used to build
the cache key in `l10n` (fluent.py line 207). -/
def pyStrValues : Option Values → String
  | none => "None"
  | some l =>
    "\x7b" ++ String.intercalate ", "
      (l.map (fun kv => pyq ++ kv.1 ++ pyq ++ ": " ++ pyq ++ kv.2 ++ pyq)) ++ "\x7d"

/-- Python `d.get(k)` on an insertion-ordered dict modelled as an assoc list. -/
def dictGet {α : Type} : List (String × α) → String → Option α
  | [], _ => none
  | (k2, v) :: rest, k => if k2 = k then some v else dictGet rest k

/-- Python `d[k] = v`: replace in place if the key exists, else append. -/
def dictInsert {α : Type} : List (String × α) → String → α → List (String × α)
  | [], k, v => [(k, v)]
  | (k2, v2) :: rest, k, v =>
    if k2 = k then (k, v) :: rest else (k2, v2) :: dictInsert rest k v

/-- The kind of a filesystem entry. -/
inductive FSKind where
  | file
  | dir
deriving DecidableEq, Repr

/-- The filesystem: a finite association of absolute paths (lists of
components) to entry kinds. Directories appear explicitly as entries. -/
abbrev FS := List (List String × FSKind)

/-- The kind of the entry at path `p`, if any. -/
def lookupPath : FS → List String → Option FSKind
  | [], _ => none
  | e :: rest, p => if e.1 = p then some e.2 else lookupPath rest p

/-- Python `Path(p).is_dir()` against the modelled filesystem. -/
def isDir (fs : FS) (p : List String) : Bool :=
  match lookupPath fs p with
  | some .dir => true
  | _ => false

/-- Returns `some n` when `q` is `p ++ [n]`, i.e. an immediate child of `p`. -/
def childName (p q : List String) : Option String :=
  if q.take p.length = p then
    match q.drop p.length with
    | [n] => some n
    | _ => none
  else none

/-- The immediate children (name and kind) of the directory at `p`; models
`Path(p).iterdir()`. -/
def listDir (fs : FS) (p : List String) : List (String × FSKind) :=
  fs.filterMap fun e => (childName p e.1).map fun n => (n, e.2)

/-- Python `str(Path(*parts))`: "." for the empty path. -/
def pathStr (p : List String) : String :=
  match p with
  | [] => "."
  | _ => String.intercalate "/" p

/-- The error message of `search_languages` / `search_ftl_files` / `load` for a
missing or non-directory path. -/
def badPathMsg (p : List String) : String :=
  "Path " ++ pyq ++ pathStr p ++ pyq ++ " does not exist or is not a directory."

/-- The list comprehension in `search_languages` (utils.py line 51):
`[Path(*dir_.parts[1:]) for dir_ in path.iterdir() if dir_.is_dir()]`. -/
def searchLanguagesList (fs : FS) (path : List String) : List (List String) :=
  (listDir fs path).filterMap fun c =>
    match c.2 with
    | .dir => some ((path ++ [c.1]).drop 1)
    | .file => none

/-- Models `search_languages` (utils.py lines 33-51): raise `RuntimeError` unless the
path is a directory, else return the immediate subdirectories, each with its
first path component stripped. -/
def search_languages (fs : FS) (path : List String) :
    Except PyError (List (List String)) :=
  if isDir fs path then .ok (searchLanguagesList fs path)
  else .error (.runtimeError (badPathMsg path))

/-- Python `str.endswith`, via the character lists (kernel-reducible, unlike
`String.endsWith`). -/
def strEndsWith (s suffix : String) : Bool :=
  suffix.data.isSuffixOf s.data

/-- Returns `some rel` when `q` is a strict descendant of `p`, where `rel` is the
path of `q` relative to `p`. -/
def descendantRel (p q : List String) : Option (List String) :=
  if q.take p.length = p ∧ p.length < q.length then some (q.drop p.length)
  else none

/-- Models `path.glob("**/*.ftl")`: every entry below `p` whose final component ends
in `.ftl`, as paths relative to `p`, in filesystem order. -/
def globFtl (fs : FS) (p : List String) : List (List String) :=
  fs.filterMap fun e =>
    match descendantRel p e.1 with
    | some rel => if strEndsWith (rel.getLastD "") ".ftl" then some rel else none
    | none => none

/-- The list comprehension in `search_ftl_files` (utils.py line 30):
`[str(Path(*(file.parts[2:]))) for file in path.glob("**/*.ftl")]`. -/
def searchFtlList (fs : FS) (path : List String) : List String :=
  (globFtl fs path).map fun rel => pathStr ((path ++ rel).drop 2)

/-- Models `search_ftl_files` (utils.py lines 12-30). -/
def search_ftl_files (fs : FS) (path : List String) :
    Except PyError (List String) :=
  if isDir fs path then .ok (searchFtlList fs path)
  else .error (.runtimeError (badPathMsg path))

/-- The data `FluentLocalization` (aliased `FluentLocalizator`) is constructed
with in `FluentStore.load` (fluent.py lines 160-165): the locale fallback
chain, the resource ids, the loader root and the custom-function table.
`Fn` is the (opaque) type of Python function objects. -/
structure FluentLocalizator (Fn : Type) where
  locales : List String
  resources : List String
  loaderRoot : String
  functions : Option (List (String × Fn))
deriving DecidableEq

/-- The formatting oracle standing in for the external Fluent runtime:
`fmt lz key values` is `lz.format_value(key, values)`. -/
abbrev Fmt (Fn : Type) := FluentLocalizator Fn → String → Values → String

/-- The state of a `FluentStore` (fluent.py lines 53-83): configuration set in
`__init__` plus the mutable attributes (`_loader`, `_langs`, `_localizators`,
`_localization_cache`, `_disnake_localization_cache`). -/
structure FluentStore (Fn : Type) where
  strict : Bool
  default_language : String
  default_message : String
  functions : Option (List (String × Fn))
  cache_by_default : Bool
  loader : Option String
  langs : List (List String)
  localizators : List (String × FluentLocalizator Fn)
  localization_cache : List (String × String)
  disnake_localization_cache : List (String × List (String × String))
deriving DecidableEq

/-- Models `FluentStore.__init__` (fluent.py lines 65-85). -/
def FluentStore.init (Fn : Type) (strict : Bool) (default_language : String)
    (default_message : String) (functions : Option (List (String × Fn)))
    (cache_by_default : Bool) : FluentStore Fn :=
  { strict := strict
    default_language := default_language
    default_message := default_message
    functions := functions
    cache_by_default := cache_by_default
    loader := none
    langs := []
    localizators := []
    localization_cache := []
    disnake_localization_cache := [] }

/-- The `RuntimeError` message raised by `get` and `l10n` before `load`. -/
def notInitMsg : String := "FluentStore was not initialized yet."

/-- The warning message of `l10n` when no localizator exists for the locale
(fluent.py line 218). -/
def localizatorNotFoundMsg (locale : String) : String :=
  "Localizator not found for locale " ++ pyq ++ locale ++ pyq ++ "."

/-- The message of `l10n` for a key not found (raised when strict, warned
otherwise; fluent.py lines 233 and 235). -/
def keyNotFoundMsg (key locale : String) : String :=
  "Key " ++ pyq ++ key ++ pyq ++ " not found for locale " ++ pyq ++ locale ++ pyq ++ "."

/-- The cache key of `l10n` (fluent.py line 207):
`key + ":" + str(locale) + ":" + str(values)`. -/
def mkCacheKey (key locale : String) (values : Option Values) : String :=
  key ++ ":" ++ locale ++ ":" ++ pyStrValues values

/-- The effective caching flag of `l10n` (fluent.py line 206):
`cache if cache is not None else self._cache_by_default`. -/
def effCache {Fn : Type} (s : FluentStore Fn) (cacheArg : Option Bool) : Bool :=
  match cacheArg with
  | some b => b
  | none => s.cache_by_default

/-- The walrus-plus-truthiness cache probe of `l10n` (fluent.py line 210):
`if cached := self._localization_cache.get(cache_key):` — a cached empty
string is falsy and treated like a miss. -/
def truthyHit {Fn : Type} (s : FluentStore Fn) (ck : String) : Option String :=
  match dictGet s.localization_cache ck with
  | some c => if c = "" then none else some c
  | none => none

/-- Python `values or {}` (fluent.py line 221). -/
def pyOrEmpty (values : Option Values) : Values :=
  match values with
  | none => []
  | some v => v

/-- Decidable equality for `Except`, so that outcomes can be compared by
`decide` in concrete evaluations. -/
instance {ε α : Type} [DecidableEq ε] [DecidableEq α] :
    DecidableEq (Except ε α) := fun x y =>
  match x, y with
  | .ok a, .ok b =>
    if h : a = b then isTrue (by rw [h]) else isFalse (by simp [h])
  | .ok _, .error _ => isFalse (fun h => Except.noConfusion h)
  | .error _, .ok _ => isFalse (fun h => Except.noConfusion h)
  | .error a, .error b =>
    if h : a = b then isTrue (by rw [h]) else isFalse (by simp [h])

/-- The outcome of one `l10n` call: the returned string or raised exception,
the store state afterwards, the warnings emitted, and how many times
`format_value` was invoked. -/
structure L10nOut (Fn : Type) where
  result : Except PyError String
  store : FluentStore Fn
  warnings : List String
  fmtCalls : Nat
deriving DecidableEq

/-- Models `FluentStore.l10n` (fluent.py lines 167-237), with the external formatter
supplied as the oracle `fmt`. Note the Python truthiness tests:
`if cached := self._localization_cache.get(cache_key):` treats a cached empty
string as a miss, and `values = values or {}` maps `None` (and `{}`) to `{}`. -/
def FluentStore.l10n {Fn : Type} (fmt : Fmt Fn) (s : FluentStore Fn)
    (key locale : String) (values : Option Values) (cacheArg : Option Bool) :
    L10nOut Fn :=
  match s.loader with
  | none => ⟨.error (.runtimeError notInitMsg), s, [], 0⟩
  | some _ =>
    let cache := effCache s cacheArg
    let cache_key := mkCacheKey key locale values
    match (if cache then truthyHit s cache_key else none) with
    | some c => ⟨.ok c, s, [], 0⟩
    | none =>
      match dictGet s.localizators locale with
      | none =>
        ⟨.ok s.default_message, s, [localizatorNotFoundMsg locale], 0⟩
      | some localizator =>
        let localized := fmt localizator key (pyOrEmpty values)
        if localized ≠ key then
          let s2 := if cache then
              { s with localization_cache :=
                  dictInsert s.localization_cache cache_key localized }
            else s
          ⟨.ok localized, s2, [], 1⟩
        else if s.strict then
          ⟨.error (.localizationKeyError (keyNotFoundMsg key locale)), s, [], 1⟩
        else
          ⟨.ok s.default_message, s, [keyNotFoundMsg key locale], 1⟩

/-- The outcome of one `get` call; `l10nCalls` counts the `self.l10n(...)`
invocations made during the call. -/
structure GetOut (Fn : Type) where
  result : Except PyError (List (String × String))
  store : FluentStore Fn
  warnings : List String
  fmtCalls : Nat
  l10nCalls : Nat
deriving DecidableEq

/-- The `for lang in self._langs:` loop of `get` (fluent.py lines 119-122),
threading the store through each `l10n` call and accumulating the
`localizations` dict; the all-locales cache write happens only after the
whole loop has run. -/
def FluentStore.getLoop {Fn : Type} (fmt : Fmt Fn) (key : String) :
    List (List String) → FluentStore Fn → List (String × String) →
    List String → Nat → Nat → GetOut Fn
  | [], st, acc, ws, fc, lc =>
    ⟨.ok acc,
      { st with disnake_localization_cache :=
          dictInsert st.disnake_localization_cache key acc },
      ws, fc, lc⟩
  | lang :: rest, st, acc, ws, fc, lc =>
    let r := FluentStore.l10n fmt st key (pathStr lang) none none
    match r.result with
    | .error e => ⟨.error e, r.store, ws ++ r.warnings, fc + r.fmtCalls, lc + 1⟩
    | .ok v =>
      FluentStore.getLoop fmt key rest r.store
        (dictInsert acc (pathStr lang) v) (ws ++ r.warnings)
        (fc + r.fmtCalls) (lc + 1)

/-- Models `FluentStore.get` (fluent.py lines 87-124). `if not localizations:` is a
truthiness test: both a missing cache entry and a cached empty dict take the
recomputation path. -/
def FluentStore.get {Fn : Type} (fmt : Fmt Fn) (s : FluentStore Fn)
    (key : String) : GetOut Fn :=
  match s.loader with
  | none => ⟨.error (.runtimeError notInitMsg), s, [], 0, 0⟩
  | some _ =>
    match dictGet s.disnake_localization_cache key with
    | some m =>
      if m = [] then FluentStore.getLoop fmt key s.langs s [] [] 0 0
      else ⟨.ok m, s, [], 0, 0⟩
    | none => FluentStore.getLoop fmt key s.langs s [] [] 0 0

/-- The outcome of a `load` or `reload` call. -/
structure LoadOut (Fn : Type) where
  result : Except PyError Unit
  store : FluentStore Fn
deriving DecidableEq

/-- One iteration of the `for lang in self._langs:` loop of `load`
(fluent.py lines 159-165): store a localizator under `str(lang)`, built with
the fallback chain `[str(lang), default_language]`, the discovered
resources, the loader and the custom-function table of the store. -/
def loadStep {Fn : Type} (dl : String) (fns : Option (List (String × Fn)))
    (resources : List String) (loaderRoot : String) (st : FluentStore Fn)
    (lang : List String) : FluentStore Fn :=
  let lz := FluentLocalizator.mk [pathStr lang, dl] resources loaderRoot fns
  { st with localizators := dictInsert st.localizators (pathStr lang) lz }

/-- The store right after fluent.py lines 147 and 157: `_langs` and
`_loader` assigned, localizators not yet built. -/
def loadBase {Fn : Type} (s : FluentStore Fn) (loaderRoot : String)
    (langs : List (List String)) : FluentStore Fn :=
  { s with loader := some loaderRoot, langs := langs }

/-- Models `FluentStore.load` (fluent.py lines 126-165): check the path, discover
languages and resources, set `_loader`, then build one localizator per
discovered language with fallback chain `[str(lang), default_language]` and
the function table of the store. -/
def FluentStore.load {Fn : Type} (s : FluentStore Fn) (fs : FS)
    (path : List String) : LoadOut Fn :=
  if isDir fs path then
    let langs := searchLanguagesList fs path
    let resources := searchFtlList fs path
    let loaderRoot := pathStr path ++ "/\x7blocale\x7d"
    let s1 := loadBase s loaderRoot langs
    let s2 := langs.foldl
      (loadStep s.default_language s.functions resources loaderRoot) s1
    ⟨.ok (), s2⟩
  else ⟨.error (.runtimeError (badPathMsg path)), s⟩

/-- Models `FluentStore.reload` (fluent.py lines 239-247): unconditionally
`raise NotImplementedError`. -/
def FluentStore.reload {Fn : Type} (s : FluentStore Fn) : LoadOut Fn :=
  ⟨.error .notImplementedError, s⟩

/-- The store after `l10n` writes one entry to the string cache
(fluent.py line 227). -/
def cacheInsert {Fn : Type} (s : FluentStore Fn) (ck v : String) :
    FluentStore Fn :=
  { s with localization_cache := dictInsert s.localization_cache ck v }

/-- A concrete loaded store (strict off, caching off) with one localizator
for `en-US`, used to instantiate theorems with hypotheses. -/
def demoStore : FluentStore Unit :=
  { strict := false
    default_language := "en-US"
    default_message := "<untranslated>"
    functions := none
    cache_by_default := false
    loader := some "locales/\x7blocale\x7d"
    langs := [["en-US"]]
    localizators := [("en-US", ⟨["en-US", "en-US"], ["main.ftl"], "locales/\x7blocale\x7d", none⟩)]
    localization_cache := []
    disnake_localization_cache := [] }

/-- The echo oracle: no message exists anywhere, so `format_value` returns
the lookup key itself. -/
def fmtEcho : Fmt Unit := fun _ k _ => k

/-- A constant oracle whose output is observably different from both the
lookup key and the cached values. -/
def fmtConst : Fmt Unit := fun _ _ _ => "RENDERED"

/-- A loaded store whose string cache holds the EMPTY string for the probed
cache key. -/
def c2EmptyHitStore : FluentStore Unit :=
  { demoStore with localization_cache := [(mkCacheKey "k" "en-US" none, "")] }

/-- A loaded store with a non-empty cached string for the probed cache key. -/
def c2HitStore : FluentStore Unit :=
  { demoStore with localization_cache := [(mkCacheKey "k" "en-US" none, "CACHED")] }

/-- A strict variant of the demo store, to witness C3 under strict mode. -/
def strictStore : FluentStore Unit := { demoStore with strict := true }

/-- The store after the first successful `get fmtEcho demoStore "k"`. -/
def c4Store2 : FluentStore Unit :=
  { demoStore with disnake_localization_cache :=
      [("k", [("en-US", "<untranslated>")])] }

/-- A freshly constructed (never loaded) store. -/
def freshStore : FluentStore Unit :=
  FluentStore.init Unit false "en-US" "<untranslated>" none false

/-- A small filesystem for the `load` witness: one locale directory and a
stray file. -/
def c7FS : FS :=
  [(["locales"], .dir), (["locales", "en-US"], .dir),
    (["locales", "en-US", "main.ftl"], .file), (["locales", "x.txt"], .file)]

/-- The names of the immediate subdirectory entries in a directory listing. -/
def dirNames (cs : List (String × FSKind)) : List String :=
  cs.filterMap fun c =>
    match c.2 with
    | .dir => some c.1
    | .file => none

/-- A filesystem whose locale root `a/b` has more than one path component. -/
def c9FS : FS := [(["a"], .dir), (["a", "b"], .dir), (["a", "b", "fr"], .dir)]

/-- Looking up the key just inserted yields the inserted value. -/
theorem dictGet_dictInsert_self {α : Type} (d : List (String × α)) (k : String)
    (v : α) : dictGet (dictInsert d k v) k = some v := by
  induction d with
  | nil => simp [dictInsert, dictGet]
  | cons p rest ih =>
    by_cases h : p.1 = k
    · simp [dictInsert, dictGet, h]
    · simp [dictInsert, dictGet, h, ih]

/-- Inserting one key leaves lookups of other keys unchanged. -/
theorem dictGet_dictInsert_ne {α : Type} (d : List (String × α)) (k k2 : String)
    (v : α) (h : k2 ≠ k) : dictGet (dictInsert d k v) k2 = dictGet d k2 := by
  have hne : k ≠ k2 := fun hh => h hh.symm
  induction d with
  | nil => simp [dictInsert, dictGet, hne]
  | cons p rest ih =>
    by_cases hp : p.1 = k
    · simp [dictInsert, dictGet, hp, hne]
    · simp [dictInsert, dictGet, hp, ih]

/-- A lookup after an insert is defined iff it hits the inserted key or was
already defined. -/
theorem dictGet_dictInsert_isSome {α : Type} (d : List (String × α))
    (k k2 : String) (v : α) :
    (dictGet (dictInsert d k v) k2).isSome
      = ((dictGet d k2).isSome || decide (k2 = k)) := by
  by_cases h : k2 = k
  · subst h
    simp [dictGet_dictInsert_self]
  · simp [dictGet_dictInsert_ne d k k2 v h, h]

/-- Re-inserting a binding already present leaves the dict unchanged. -/
theorem dictInsert_eq_of_dictGet {α : Type} (d : List (String × α))
    (k : String) (v : α) (h : dictGet d k = some v) : dictInsert d k v = d := by
  induction d with
  | nil => simp [dictGet] at h
  | cons p rest ih =>
    obtain ⟨k1, v1⟩ := p
    by_cases hp : k1 = k
    · simp only [dictGet] at h
      rw [if_pos hp] at h
      injection h with hv
      simp [dictInsert, hp, hv]
    · simp only [dictGet] at h
      rw [if_neg hp] at h
      simp [dictInsert, hp, ih h]

theorem l10n_unloaded {Fn : Type} (fmt : Fmt Fn) (s : FluentStore Fn)
    (key locale : String) (values : Option Values) (cacheArg : Option Bool)
    (h : s.loader = none) :
    FluentStore.l10n fmt s key locale values cacheArg
      = ⟨.error (.runtimeError notInitMsg), s, [], 0⟩ := by
  unfold FluentStore.l10n
  rw [h]

theorem l10n_store_shape {Fn : Type} (fmt : Fmt Fn) (s : FluentStore Fn)
    (key locale : String) (values : Option Values) (cacheArg : Option Bool) :
    ∃ c, (FluentStore.l10n fmt s key locale values cacheArg).store
      = { s with localization_cache := c } := by
  cases hl : s.loader with
  | none =>
    rw [l10n_unloaded fmt s key locale values cacheArg hl]
    exact ⟨s.localization_cache, by rw [← hl]⟩
  | some lr =>
    simp only [FluentStore.l10n, hl]
    repeat' (first | exact ⟨_, by rw [← hl]⟩ | split)

/-- A truthy cache hit (fluent.py lines 209-211) returns the cached string
with no formatting, no warning and no state change. -/
theorem l10n_hit {Fn : Type} (fmt : Fmt Fn) (s : FluentStore Fn)
    (key locale : String) (values : Option Values) (cacheArg : Option Bool)
    (lr : String) (hload : s.loader = some lr) (c : String)
    (hhit : (if effCache s cacheArg then
        truthyHit s (mkCacheKey key locale values) else none) = some c) :
    FluentStore.l10n fmt s key locale values cacheArg = ⟨.ok c, s, [], 0⟩ := by
  simp only [FluentStore.l10n, hload, hhit]

/-- No localizator for the locale (fluent.py lines 215-219): warn and return
the default message, untouched state, no formatting. -/
theorem l10n_no_localizator {Fn : Type} (fmt : Fmt Fn) (s : FluentStore Fn)
    (key locale : String) (values : Option Values) (cacheArg : Option Bool)
    (lr : String) (hload : s.loader = some lr)
    (hnohit : (if effCache s cacheArg then
        truthyHit s (mkCacheKey key locale values) else none) = none)
    (hnolz : dictGet s.localizators locale = none) :
    FluentStore.l10n fmt s key locale values cacheArg
      = ⟨.ok s.default_message, s, [localizatorNotFoundMsg locale], 0⟩ := by
  simp only [FluentStore.l10n, hload, hnohit, hnolz]

/-- Translation found (fluent.py lines 225-228): return the rendering, cache
it when caching is on. -/
theorem l10n_found {Fn : Type} (fmt : Fmt Fn) (s : FluentStore Fn)
    (key locale : String) (values : Option Values) (cacheArg : Option Bool)
    (lr : String) (hload : s.loader = some lr)
    (hnohit : (if effCache s cacheArg then
        truthyHit s (mkCacheKey key locale values) else none) = none)
    (lz : FluentLocalizator Fn) (hlz : dictGet s.localizators locale = some lz)
    (hne : fmt lz key (pyOrEmpty values) ≠ key) :
    FluentStore.l10n fmt s key locale values cacheArg
      = ⟨.ok (fmt lz key (pyOrEmpty values)),
          (if effCache s cacheArg then
            cacheInsert s (mkCacheKey key locale values)
              (fmt lz key (pyOrEmpty values))
          else s), [], 1⟩ := by
  simp only [FluentStore.l10n, cacheInsert, hload, hnohit, hlz, hne, if_pos,
    ne_eq, not_false_eq_true, if_true]

/-- Key not found in strict mode (fluent.py lines 232-233): raise
`LocalizationKeyError`, untouched state. -/
theorem l10n_not_found_strict {Fn : Type} (fmt : Fmt Fn) (s : FluentStore Fn)
    (key locale : String) (values : Option Values) (cacheArg : Option Bool)
    (lr : String) (hload : s.loader = some lr)
    (hnohit : (if effCache s cacheArg then
        truthyHit s (mkCacheKey key locale values) else none) = none)
    (lz : FluentLocalizator Fn) (hlz : dictGet s.localizators locale = some lz)
    (hfb : fmt lz key (pyOrEmpty values) = key) (hstrict : s.strict = true) :
    FluentStore.l10n fmt s key locale values cacheArg
      = ⟨.error (.localizationKeyError (keyNotFoundMsg key locale)), s, [], 1⟩ := by
  simp only [FluentStore.l10n, hload, hnohit, hlz, hfb, hstrict, ne_eq,
    not_true_eq_false, if_false, if_true]

/-- Key not found in non-strict mode (fluent.py lines 235-237): warn and
return the default message, untouched state. -/
theorem l10n_not_found_lax {Fn : Type} (fmt : Fmt Fn) (s : FluentStore Fn)
    (key locale : String) (values : Option Values) (cacheArg : Option Bool)
    (lr : String) (hload : s.loader = some lr)
    (hnohit : (if effCache s cacheArg then
        truthyHit s (mkCacheKey key locale values) else none) = none)
    (lz : FluentLocalizator Fn) (hlz : dictGet s.localizators locale = some lz)
    (hfb : fmt lz key (pyOrEmpty values) = key) (hstrict : s.strict = false) :
    FluentStore.l10n fmt s key locale values cacheArg
      = ⟨.ok s.default_message, s, [keyNotFoundMsg key locale], 1⟩ := by
  simp only [FluentStore.l10n, hload, hnohit, hlz, hfb, hstrict, ne_eq,
    not_true_eq_false, if_false, Bool.false_eq_true]

/-- The store fields other than the string cache survive any `l10n` call. -/
theorem l10n_store_fields {Fn : Type} (fmt : Fmt Fn) (s : FluentStore Fn)
    (key locale : String) (values : Option Values) (cacheArg : Option Bool) :
    (FluentStore.l10n fmt s key locale values cacheArg).store.loader = s.loader
    ∧ (FluentStore.l10n fmt s key locale values cacheArg).store.langs = s.langs
    ∧ (FluentStore.l10n fmt s key locale values cacheArg).store.disnake_localization_cache
        = s.disnake_localization_cache := by
  obtain ⟨c, hc⟩ := l10n_store_shape fmt s key locale values cacheArg
  rw [hc]
  exact ⟨rfl, rfl, rfl⟩

/-- If the `get` fan-out loop raises, the all-locales cache is exactly as it
was when the loop started: the write at fluent.py line 122 happens only after
the whole loop. -/
theorem getLoop_error_cache {Fn : Type} (fmt : Fmt Fn) (key : String) :
    ∀ (langs : List (List String)) (st : FluentStore Fn)
      (acc : List (String × String)) (ws : List String) (fc lc : Nat)
      (e : PyError),
      (FluentStore.getLoop fmt key langs st acc ws fc lc).result = .error e →
      (FluentStore.getLoop fmt key langs st acc ws fc lc).store.disnake_localization_cache
        = st.disnake_localization_cache := by
  intro langs
  induction langs with
  | nil =>
    intro st acc ws fc lc e h
    simp only [FluentStore.getLoop] at h
    cases h
  | cons lang rest ih =>
    intro st acc ws fc lc e h
    simp only [FluentStore.getLoop] at h ⊢
    cases hr : (FluentStore.l10n fmt st key (pathStr lang) none none).result with
    | error e2 =>
      dsimp only
      exact (l10n_store_fields fmt st key (pathStr lang) none none).2.2
    | ok v =>
      rw [hr] at h
      dsimp only at h ⊢
      rw [ih _ _ _ _ _ _ h]
      exact (l10n_store_fields fmt st key (pathStr lang) none none).2.2

/-- If the `get` fan-out loop completes, the assembled dict has one entry per
processed language (on top of the accumulator), the loop leaves `_loader` and
`_langs` alone, and the all-locales cache now maps `key` to the result. -/
theorem getLoop_ok_spec {Fn : Type} (fmt : Fmt Fn) (key : String) :
    ∀ (langs : List (List String)) (st : FluentStore Fn)
      (acc : List (String × String)) (ws : List String) (fc lc : Nat)
      (m : List (String × String)) (s2 : FluentStore Fn) (ws2 : List String)
      (fc2 lc2 : Nat),
      FluentStore.getLoop fmt key langs st acc ws fc lc = ⟨.ok m, s2, ws2, fc2, lc2⟩ →
      (∀ l, (dictGet m l).isSome
          = ((dictGet acc l).isSome || decide (l ∈ langs.map pathStr)))
      ∧ s2.loader = st.loader
      ∧ s2.langs = st.langs
      ∧ dictGet s2.disnake_localization_cache key = some m := by
  intro langs
  induction langs with
  | nil =>
    intro st acc ws fc lc m s2 ws2 fc2 lc2 h
    simp only [FluentStore.getLoop, GetOut.mk.injEq] at h
    obtain ⟨hm, hs2, _, _, _⟩ := h
    injection hm with hm
    subst hm
    subst hs2
    refine ⟨?_, rfl, rfl, ?_⟩
    · intro l
      simp
    · exact dictGet_dictInsert_self _ _ _
  | cons lang rest ih =>
    intro st acc ws fc lc m s2 ws2 fc2 lc2 h
    simp only [FluentStore.getLoop] at h
    cases hr : (FluentStore.l10n fmt st key (pathStr lang) none none).result with
    | error e2 =>
      rw [hr] at h
      dsimp only at h
      simp only [GetOut.mk.injEq] at h
      exact absurd h.1 (fun hh => Except.noConfusion hh)
    | ok v =>
      rw [hr] at h
      dsimp only at h
      obtain ⟨hkeys, hloader, hlangs, hcache⟩ := ih _ _ _ _ _ _ _ _ _ _ h
      have hfields := l10n_store_fields fmt st key (pathStr lang) none none
      refine ⟨?_, ?_, ?_, hcache⟩
      · intro l
        rw [hkeys l, dictGet_dictInsert_isSome]
        simp only [List.map_cons, List.mem_cons, Bool.or_assoc]
        rcases Decidable.em (l = pathStr lang) with he | he <;>
          rcases Decidable.em (l ∈ List.map pathStr rest) with hm2 | hm2 <;>
          simp [he, hm2]
      · rw [hloader]
        exact hfields.1
      · rw [hlangs]
        exact hfields.2.1

/-- C1: with a loaded store, an existing localizator for the locale, no truthy
cache hit, and the formatter returning the lookup key (the not-found
sentinel), `l10n` raises `LocalizationKeyError` iff the strict flag is set;
with strict off it returns the default message and emits exactly the
not-found warning. Both branches are functions of the same inputs, so for a
fixed store configuration the behaviour is deterministic and depends only on
the strict flag. -/
theorem c1_l10n_not_found_strict_iff {Fn : Type} (fmt : Fmt Fn)
    (s : FluentStore Fn) (key locale : String) (values : Option Values)
    (cacheArg : Option Bool) (lr : String) (hload : s.loader = some lr)
    (hnohit : (if effCache s cacheArg then
        truthyHit s (mkCacheKey key locale values) else none) = none)
    (lz : FluentLocalizator Fn) (hlz : dictGet s.localizators locale = some lz)
    (hfb : fmt lz key (pyOrEmpty values) = key) :
    ((FluentStore.l10n fmt s key locale values cacheArg).result
        = .error (.localizationKeyError (keyNotFoundMsg key locale))
      ↔ s.strict = true)
    ∧ (s.strict = false →
        FluentStore.l10n fmt s key locale values cacheArg
          = ⟨.ok s.default_message, s, [keyNotFoundMsg key locale], 1⟩) := by
  cases hstrict : s.strict with
  | true =>
    rw [l10n_not_found_strict fmt s key locale values cacheArg lr hload hnohit
      lz hlz hfb hstrict]
    exact ⟨⟨fun _ => rfl, fun _ => rfl⟩, fun hh => absurd hh (by simp)⟩
  | false =>
    rw [l10n_not_found_lax fmt s key locale values cacheArg lr hload hnohit
      lz hlz hfb hstrict]
    refine ⟨⟨fun hh => Except.noConfusion hh, fun hh => absurd hh (by simp)⟩,
      fun _ => rfl⟩

theorem c1_witness :
    ((FluentStore.l10n fmtEcho demoStore "missing" "en-US" none none).result
        = .error (.localizationKeyError (keyNotFoundMsg "missing" "en-US"))
      ↔ demoStore.strict = true)
    ∧ (demoStore.strict = false →
        FluentStore.l10n fmtEcho demoStore "missing" "en-US" none none
          = ⟨.ok demoStore.default_message, demoStore,
              [keyNotFoundMsg "missing" "en-US"], 1⟩) :=
  c1_l10n_not_found_strict_iff fmtEcho demoStore "missing" "en-US" none none
    "locales/\x7blocale\x7d" rfl (by rfl)
    ⟨["en-US", "en-US"], ["main.ftl"], "locales/\x7blocale\x7d", none⟩ (by rfl)
    (by rfl)

/-- C2 (amended): with caching effectively on and a NON-EMPTY cached string
under the composite cache key, `l10n` returns the cached string with no
formatter call and no state change; the effective flag is the explicit
argument when given, else the store default, and the cache key is the
composition of key, locale and stringified values. (A cached EMPTY string is
falsy in Python and treated as a miss — see the counterexample.) -/
theorem c2_l10n_cache_hit {Fn : Type} (fmt : Fmt Fn) (s : FluentStore Fn)
    (key locale : String) (values : Option Values) (cacheArg : Option Bool)
    (lr : String) (hload : s.loader = some lr)
    (heff : effCache s cacheArg = true) (c : String)
    (hhit : dictGet s.localization_cache (mkCacheKey key locale values) = some c)
    (hne : c ≠ "") :
    FluentStore.l10n fmt s key locale values cacheArg = ⟨.ok c, s, [], 0⟩
    ∧ effCache s cacheArg = cacheArg.getD s.cache_by_default
    ∧ mkCacheKey key locale values
        = key ++ ":" ++ locale ++ ":" ++ pyStrValues values := by
  refine ⟨?_, ?_, rfl⟩
  · apply l10n_hit fmt s key locale values cacheArg lr hload c
    simp [heff, truthyHit, hhit, hne]
  · cases cacheArg <;> rfl

/-- Counterexample to C2 as stated: the cache entry for the key IS present,
caching is effectively on, yet `l10n` invokes the formatter and does not
return the cached string — the Python idiom `if cached := d.get(k):` treats the empty
string as a miss. -/
theorem c2_counterexample :
    dictGet c2EmptyHitStore.localization_cache (mkCacheKey "k" "en-US" none)
        = some ""
    ∧ effCache c2EmptyHitStore (some true) = true
    ∧ (FluentStore.l10n fmtConst c2EmptyHitStore "k" "en-US" none (some true)).fmtCalls = 1
    ∧ (FluentStore.l10n fmtConst c2EmptyHitStore "k" "en-US" none (some true)).result
        ≠ .ok "" := by decide

theorem c2_witness :
    FluentStore.l10n fmtConst c2HitStore "k" "en-US" none (some true)
        = ⟨.ok "CACHED", c2HitStore, [], 0⟩
    ∧ effCache c2HitStore (some true) = (some true).getD c2HitStore.cache_by_default
    ∧ mkCacheKey "k" "en-US" none
        = "k" ++ ":" ++ "en-US" ++ ":" ++ pyStrValues none :=
  c2_l10n_cache_hit fmtConst c2HitStore "k" "en-US" none (some true)
    "locales/\x7blocale\x7d" rfl rfl "CACHED" (by decide) (by decide)

/-- C3: with a loaded store, no truthy cache hit, and no localizator for the
requested locale, `l10n` warns ("localizator not found") and returns the
default message — without raising and without consulting the strict flag
(`s.strict` is arbitrary here, and neither hypotheses nor conclusion mention
it). -/
theorem c3_l10n_locale_not_found {Fn : Type} (fmt : Fmt Fn)
    (s : FluentStore Fn) (key locale : String) (values : Option Values)
    (cacheArg : Option Bool) (lr : String) (hload : s.loader = some lr)
    (hnohit : (if effCache s cacheArg then
        truthyHit s (mkCacheKey key locale values) else none) = none)
    (hnolz : dictGet s.localizators locale = none) :
    FluentStore.l10n fmt s key locale values cacheArg
      = ⟨.ok s.default_message, s, [localizatorNotFoundMsg locale], 0⟩ := by
  simp only [FluentStore.l10n, hload, hnohit, hnolz]

theorem c3_witness :
    FluentStore.l10n fmtEcho strictStore "k" "de" none none
      = ⟨.ok strictStore.default_message, strictStore,
          [localizatorNotFoundMsg "de"], 0⟩ :=
  c3_l10n_locale_not_found fmtEcho strictStore "k" "de" none none
    "locales/\x7blocale\x7d" rfl (by decide) (by decide)

/-- C6: before `load` (no `_loader`), both lookup methods raise the
`RuntimeError` "not initialized" message, change nothing, and return no
data. -/
theorem c6_lookup_before_load {Fn : Type} (fmt : Fmt Fn) (s : FluentStore Fn)
    (hunloaded : s.loader = none) (key locale : String)
    (values : Option Values) (cacheArg : Option Bool) :
    FluentStore.l10n fmt s key locale values cacheArg
        = ⟨.error (.runtimeError notInitMsg), s, [], 0⟩
    ∧ FluentStore.get fmt s key
        = ⟨.error (.runtimeError notInitMsg), s, [], 0, 0⟩ := by
  refine ⟨l10n_unloaded fmt s key locale values cacheArg hunloaded, ?_⟩
  unfold FluentStore.get
  rw [hunloaded]

theorem c6_witness :
    FluentStore.l10n fmtEcho
        (FluentStore.init Unit false "en-US" "<untranslated>" none false)
        "k" "en-US" none none
      = ⟨.error (.runtimeError notInitMsg),
          FluentStore.init Unit false "en-US" "<untranslated>" none false, [], 0⟩
    ∧ FluentStore.get fmtEcho
        (FluentStore.init Unit false "en-US" "<untranslated>" none false) "k"
      = ⟨.error (.runtimeError notInitMsg),
          FluentStore.init Unit false "en-US" "<untranslated>" none false,
          [], 0, 0⟩ :=
  c6_lookup_before_load fmtEcho
    (FluentStore.init Unit false "en-US" "<untranslated>" none false)
    rfl "k" "en-US" none none

/-- C8: `reload` always raises `NotImplementedError` and leaves the store
untouched, whatever its state. -/
theorem c8_reload_not_implemented {Fn : Type} (s : FluentStore Fn) :
    FluentStore.reload s = ⟨.error .notImplementedError, s⟩ := rfl

/-- C4: with no all-locales cache entry for the key, a successful `get`
returns a dict whose key set is exactly the discovered locales (each `l10n`
call made with default values/caching arguments, per the definition of
`getLoop`), and a second `get` on the resulting store returns the same dict
from the cache with zero `l10n` calls and zero formatter calls. -/
theorem c4_get_keyset_idempotent {Fn : Type} (fmt : Fmt Fn)
    (s : FluentStore Fn) (key : String)
    (hmiss : dictGet s.disnake_localization_cache key = none)
    (m : List (String × String)) (s2 : FluentStore Fn) (ws : List String)
    (fc lc : Nat)
    (hok : FluentStore.get fmt s key = ⟨.ok m, s2, ws, fc, lc⟩) :
    (∀ l, (dictGet m l).isSome = true ↔ l ∈ s.langs.map pathStr)
    ∧ FluentStore.get fmt s2 key = ⟨.ok m, s2, [], 0, 0⟩ := by
  cases hl : s.loader with
  | none =>
    unfold FluentStore.get at hok
    rw [hl] at hok
    dsimp only at hok
    simp only [GetOut.mk.injEq] at hok
    exact absurd hok.1 (fun hh => Except.noConfusion hh)
  | some lr =>
    unfold FluentStore.get at hok
    rw [hl, hmiss] at hok
    dsimp only at hok
    obtain ⟨hkeys, hloader, hlangs, hcache⟩ :=
      getLoop_ok_spec fmt key s.langs s [] [] 0 0 m s2 ws fc lc hok
    constructor
    · intro l
      have hx := hkeys l
      simp only [dictGet, Option.isSome_none, Bool.false_or] at hx
      simp [hx]
    · unfold FluentStore.get
      rw [hloader, hl, hcache]
      dsimp only
      by_cases hm : m = []
      · rw [if_pos hm]
        have hnomem : ∀ l, l ∉ s.langs.map pathStr := by
          intro l hlmem
          have hx := hkeys l
          rw [hm] at hx
          simp [dictGet, hlmem] at hx
        have hmapnil : s.langs.map pathStr = [] :=
          List.eq_nil_iff_forall_not_mem.mpr hnomem
        have hlgs : s.langs = [] := List.map_eq_nil_iff.mp hmapnil
        rw [hlangs, hlgs]
        simp only [FluentStore.getLoop]
        rw [hm] at hcache ⊢
        rw [dictInsert_eq_of_dictGet _ _ _ hcache]
      · rw [if_neg hm]

theorem c4_witness :
    dictGet demoStore.disnake_localization_cache "k" = none
    ∧ ((dictGet [("en-US", "<untranslated>")] "en-US").isSome = true
        ↔ "en-US" ∈ demoStore.langs.map pathStr)
    ∧ FluentStore.get fmtEcho c4Store2 "k"
        = ⟨.ok [("en-US", "<untranslated>")], c4Store2, [], 0, 0⟩ :=
  have h := c4_get_keyset_idempotent fmtEcho demoStore "k" (by decide)
    [("en-US", "<untranslated>")] c4Store2 [keyNotFoundMsg "k" "en-US"] 1 1
    (by decide)
  ⟨by decide, h.1 "en-US", h.2⟩

/-- C10: whenever `get` raises (strict-mode key-not-found partway through the
fan-out, or the not-initialized error), the all-locales cache is left exactly
as it was: the only write to it (fluent.py line 122) happens after the whole
loop has succeeded. -/
theorem c10_get_error_atomic {Fn : Type} (fmt : Fmt Fn) (s : FluentStore Fn)
    (key : String) (e : PyError)
    (herr : (FluentStore.get fmt s key).result = .error e) :
    (FluentStore.get fmt s key).store.disnake_localization_cache
      = s.disnake_localization_cache := by
  cases hl : s.loader with
  | none =>
    unfold FluentStore.get
    rw [hl]
  | some lr =>
    unfold FluentStore.get at herr ⊢
    rw [hl] at herr ⊢
    dsimp only at herr ⊢
    cases hc : dictGet s.disnake_localization_cache key with
    | none =>
      rw [hc] at herr
      dsimp only at herr ⊢
      exact getLoop_error_cache fmt key s.langs s [] [] 0 0 e herr
    | some m =>
      rw [hc] at herr
      dsimp only at herr ⊢
      by_cases hm : m = []
      · rw [if_pos hm] at herr ⊢
        exact getLoop_error_cache fmt key s.langs s [] [] 0 0 e herr
      · rw [if_neg hm] at herr ⊢

theorem c10_witness :
    (FluentStore.get fmtEcho strictStore "k").result
        = .error (.localizationKeyError (keyNotFoundMsg "k" "en-US"))
    ∧ (FluentStore.get fmtEcho strictStore "k").store.disnake_localization_cache
        = strictStore.disnake_localization_cache :=
  ⟨by decide,
    c10_get_error_atomic fmtEcho strictStore "k"
      (.localizationKeyError (keyNotFoundMsg "k" "en-US")) (by decide)⟩

/-- C5 (code evaluated at the failing input): for a key with no localization
anywhere (echo oracle: nothing found in any locale), non-strict `get` returns
a dict mapping every discovered locale to the placeholder — it does NOT
return an absent value (the docstring promises `None`), and in strict mode it
raises instead. The modelled `get` cannot produce an absent value at all,
mirroring fluent.py lines 107-124 where every path returns a dict or
raises. -/
theorem c5_get_nothing_found_returns_dict :
    (FluentStore.get fmtEcho demoStore "missing").result
        = .ok [("en-US", "<untranslated>")]
    ∧ (FluentStore.get fmtEcho demoStore "missing").warnings
        = [keyNotFoundMsg "missing" "en-US"]
    ∧ (FluentStore.get fmtEcho strictStore "missing").result
        = .error (.localizationKeyError (keyNotFoundMsg "missing" "en-US")) := by
  decide

/-- Folding `loadStep` touches only `_localizators`. -/
theorem foldl_loadStep_fields {Fn : Type} (dl : String)
    (fns : Option (List (String × Fn))) (res : List String) (root : String) :
    ∀ (langs : List (List String)) (st : FluentStore Fn),
      (langs.foldl (loadStep dl fns res root) st).loader = st.loader
      ∧ (langs.foldl (loadStep dl fns res root) st).langs = st.langs := by
  intro langs
  induction langs with
  | nil => intro st; exact ⟨rfl, rfl⟩
  | cons l ls ih =>
    intro st
    simp only [List.foldl_cons]
    exact ih (loadStep dl fns res root st l)

/-- Keys never inserted by the fold keep their previous binding. -/
theorem foldl_loadStep_not_mem {Fn : Type} (dl : String)
    (fns : Option (List (String × Fn))) (res : List String) (root : String) :
    ∀ (langs : List (List String)) (st : FluentStore Fn) (k : String),
      (∀ l2 ∈ langs, pathStr l2 ≠ k) →
      dictGet (langs.foldl (loadStep dl fns res root) st).localizators k
        = dictGet st.localizators k := by
  intro langs
  induction langs with
  | nil => intro st k h; rfl
  | cons l ls ih =>
    intro st k h
    simp only [List.foldl_cons]
    rw [ih _ k (fun l2 hm => h l2 (List.mem_cons_of_mem _ hm))]
    exact dictGet_dictInsert_ne _ _ _ _
      (fun hh => h l (List.mem_cons_self _ _) hh.symm)

/-- Every language processed by the fold ends up with a localizator under its
`str()` key, built from the fallback chain `[str(lang), default]`, the given
resources, loader and functions (possibly via another language with the same
`str()`). -/
theorem foldl_loadStep_mem {Fn : Type} (dl : String)
    (fns : Option (List (String × Fn))) (res : List String) (root : String) :
    ∀ (langs : List (List String)) (st : FluentStore Fn) (lang : List String),
      lang ∈ langs →
      ∃ l2 : List String, pathStr l2 = pathStr lang
        ∧ dictGet (langs.foldl (loadStep dl fns res root) st).localizators
              (pathStr lang)
            = some (FluentLocalizator.mk [pathStr l2, dl] res root fns) := by
  intro langs
  induction langs with
  | nil => intro st lang h; exact absurd h (List.not_mem_nil _)
  | cons l ls ih =>
    intro st lang h
    simp only [List.foldl_cons]
    by_cases hmem : ∃ l2, l2 ∈ ls ∧ pathStr l2 = pathStr lang
    · obtain ⟨l2, hl2mem, hl2eq⟩ := hmem
      obtain ⟨l3, hl3eq, hl3get⟩ := ih (loadStep dl fns res root st l) l2 hl2mem
      refine ⟨l3, hl3eq.trans hl2eq, ?_⟩
      rw [← hl2eq]
      exact hl3get
    · have hlangl : pathStr lang = pathStr l := by
        rcases List.mem_cons.mp h with h1 | h1
        · rw [h1]
        · exact absurd ⟨lang, h1, rfl⟩ hmem
      have hne : ∀ l2 ∈ ls, pathStr l2 ≠ pathStr lang := by
        intro l2 hm heq
        exact hmem ⟨l2, hm, heq⟩
      refine ⟨l, hlangl.symm, ?_⟩
      rw [foldl_loadStep_not_mem dl fns res root ls _ (pathStr lang) hne,
        hlangl]
      exact dictGet_dictInsert_self _ _ _

/-- C7: `load` on a missing/non-directory path raises `RuntimeError` and
leaves the store untouched (in particular still unloaded if it was); on an
existing directory it succeeds, sets the loader (loaded state), records the
discovered languages, and for every discovered language there is a
localizator under `str(lang)` with fallback chain
`[str(lang), default_language]`, the discovered resources and the
custom-function table of the store. -/
theorem c7_load_spec {Fn : Type} (s : FluentStore Fn) (fs : FS)
    (path : List String) :
    (isDir fs path = false →
      FluentStore.load s fs path = ⟨.error (.runtimeError (badPathMsg path)), s⟩)
    ∧ (isDir fs path = true →
      (FluentStore.load s fs path).result = .ok ()
      ∧ (FluentStore.load s fs path).store.loader
          = some (pathStr path ++ "/\x7blocale\x7d")
      ∧ (FluentStore.load s fs path).store.langs = searchLanguagesList fs path
      ∧ ∀ lang ∈ (FluentStore.load s fs path).store.langs,
          ∃ lz : FluentLocalizator Fn,
            dictGet (FluentStore.load s fs path).store.localizators
                (pathStr lang) = some lz
            ∧ lz.locales = [pathStr lang, s.default_language]
            ∧ lz.resources = searchFtlList fs path
            ∧ lz.functions = s.functions) := by
  constructor
  · intro hbad
    simp only [FluentStore.load, hbad, Bool.false_eq_true, if_false]
  · intro hgood
    have hload : FluentStore.load s fs path
        = ⟨.ok (), (searchLanguagesList fs path).foldl
            (loadStep s.default_language s.functions (searchFtlList fs path)
              (pathStr path ++ "/\x7blocale\x7d"))
            (loadBase s (pathStr path ++ "/\x7blocale\x7d")
              (searchLanguagesList fs path))⟩ := by
      simp only [FluentStore.load, hgood, if_true]
    rw [hload]
    refine ⟨rfl, ?_, ?_, ?_⟩
    · exact (foldl_loadStep_fields _ _ _ _ _ _).1
    · exact (foldl_loadStep_fields _ _ _ _ _ _).2
    · intro lang hmem
      rw [(foldl_loadStep_fields _ _ _ _ _ _).2] at hmem
      obtain ⟨l2, hl2eq, hl2get⟩ :=
        foldl_loadStep_mem s.default_language s.functions
          (searchFtlList fs path) (pathStr path ++ "/\x7blocale\x7d")
          (searchLanguagesList fs path) _ lang hmem
      exact ⟨_, hl2get, by simp [hl2eq], rfl, rfl⟩

theorem c7_witness :
    FluentStore.load freshStore c7FS ["nope"]
        = ⟨.error (.runtimeError (badPathMsg ["nope"])), freshStore⟩
    ∧ (FluentStore.load freshStore c7FS ["locales"]).result = .ok ()
    ∧ (FluentStore.load freshStore c7FS ["locales"]).store.loader
        = some (pathStr ["locales"] ++ "/\x7blocale\x7d")
    ∧ (FluentStore.load freshStore c7FS ["locales"]).store.langs
        = searchLanguagesList c7FS ["locales"]
    ∧ dictGet (FluentStore.load freshStore c7FS ["locales"]).store.localizators
          "en-US"
        = some (FluentLocalizator.mk ["en-US", "en-US"] ["main.ftl"]
            "locales/\x7blocale\x7d" none) :=
  have hb := (c7_load_spec freshStore c7FS ["nope"]).1 (by decide)
  have hg := (c7_load_spec freshStore c7FS ["locales"]).2 (by decide)
  ⟨hb, hg.1, hg.2.1, hg.2.2.1, by decide⟩

/-- The comprehension of `search_languages`, re-expressed over the
subdirectory names. -/
theorem searchLanguagesList_eq (fs : FS) (path : List String) :
    searchLanguagesList fs path
      = (dirNames (listDir fs path)).map (fun n => (path ++ [n]).drop 1) := by
  unfold searchLanguagesList dirNames
  rw [List.map_filterMap]
  congr 1
  funext c
  obtain ⟨n, k⟩ := c
  cases k <;> rfl

/-- C9 (amended): on a missing/non-directory path `search_languages` raises a
`RuntimeError`; on an existing directory it returns one entry per IMMEDIATE
subdirectory (no recursion), namely the path of that subdirectory with the first
component of the root dropped — which equals the bare subdirectory name
exactly when the root path has a single component. -/
theorem c9_search_languages_spec (fs : FS) (path : List String) :
    (isDir fs path = false →
      search_languages fs path = .error (.runtimeError (badPathMsg path)))
    ∧ (isDir fs path = true →
      search_languages fs path
        = .ok ((dirNames (listDir fs path)).map (fun n => (path ++ [n]).drop 1)))
    ∧ (∀ p : String, isDir fs [p] = true →
      search_languages fs [p]
        = .ok ((dirNames (listDir fs [p])).map (fun n => [n]))) := by
  refine ⟨?_, ?_, ?_⟩
  · intro hbad
    simp only [search_languages, hbad, Bool.false_eq_true, if_false]
  · intro hgood
    simp only [search_languages, hgood, if_true]
    rw [searchLanguagesList_eq]
  · intro p hgood
    simp only [search_languages, hgood, if_true]
    rw [searchLanguagesList_eq]
    rfl

/-- Counterexample to C9 as stated: for the existing directory `a/b` with the
single immediate subdirectory `a/b/fr`, `search_languages` returns `b/fr` —
neither the subdirectory name `fr` nor its path `a/b/fr` — because the code
strips `parts[1:]`, i.e. exactly one leading component, whatever the root
depth. -/
theorem c9_counterexample :
    isDir c9FS ["a", "b"] = true
    ∧ search_languages c9FS ["a", "b"] = .ok [["b", "fr"]]
    ∧ (["b", "fr"] : List String) ≠ ["fr"]
    ∧ (["b", "fr"] : List String) ≠ ["a", "b", "fr"] := by decide

theorem c9_witness :
    search_languages c9FS ["zz"]
        = .error (.runtimeError (badPathMsg ["zz"]))
    ∧ search_languages c9FS ["a", "b"]
        = .ok ((dirNames (listDir c9FS ["a", "b"])).map
            (fun n => (["a", "b"] ++ [n]).drop 1))
    ∧ search_languages c9FS ["a"]
        = .ok ((dirNames (listDir c9FS ["a"])).map (fun n => [n])) :=
  ⟨(c9_search_languages_spec c9FS ["zz"]).1 (by decide),
    (c9_search_languages_spec c9FS ["a", "b"]).2.1 (by decide),
    (c9_search_languages_spec c9FS ["a"]).2.2 "a" (by decide)⟩
